import Mathlib

/-!
Verification of the state-management core of `src/src/clip/ComponentClip.js`
(phaser-ui-comps).

The embedding covers:
* `ComponentClip._setupCommonParams` — the transform applier (`setupCommonParams`);
* the `State` decorator class (`State`, `State.componentIds`);
* the `StateManager` class: its constructor (`StateManager.init`),
  `addComponent`, `setState`, `setupState` and `getActiveComponentByKey`;
* `ComponentClip.applyChildParams`.

Modelling conventions:
* JS numbers are modelled as rationals (`ℚ`); the `config.x || 0` idiom is
  modelled by `jsOr`, which treats `0` as falsy exactly as JS `||` does.
* Renderable handles are mutable objects keyed by their `childId`.  The heap
  of handles is a `Store` (an association list `childId → Handle`); the
  manager's `_components` map holds references, modelled as the list of
  registered dynamic `childId`s, each naming its handle in the shared store.
  This keeps the aliasing of JS object references: mutations performed
  through `_components` are visible through `_childrenById` and vice versa.
* A JS `TypeError` (dereferencing `undefined`, e.g. `this._components[id]`
  when `id` was never registered) is modelled by returning `none`; operations
  that can throw return `Option`.
* JS object-key iteration order is insertion order, so `Object.keys` and
  `for…in` are modelled with association lists in insertion order.
-/

set_option maxHeartbeats 1000000

/-- A renderable handle supplied by the host engine: the mutable transform
fields touched by the code under verification. -/
structure Handle where
  x : ℚ
  y : ℚ
  scaleX : ℚ
  scaleY : ℚ
  angle : ℚ
  alpha : ℚ
  visible : Bool
deriving DecidableEq, Repr

/-- A partial transform record (the per-child value inside a state's config,
called `StateConfig` in the source's JSDoc): every field optional. -/
structure TransformRecord where
  x : Option ℚ := none
  y : Option ℚ := none
  scaleX : Option ℚ := none
  scaleY : Option ℚ := none
  angle : Option ℚ := none
  alpha : Option ℚ := none
deriving DecidableEq, Repr

/-- JS `v || d` for a numeric field read off a config object: `undefined`
(absent) and `0` are falsy, so both yield the default `d`. -/
def jsOr (o : Option ℚ) (d : ℚ) : ℚ :=
  match o with
  | some v => if v = 0 then d else v
  | none => d

/-- Embedding of `ComponentClip._setupCommonParams(component, config)`:
`x = config.x || 0`, `y = config.y || 0`, `scaleX = config.scaleX || 1`,
`scaleY = config.scaleY || 1`, `angle = config.angle || 0`,
`alpha = config.hasOwnProperty("alpha") ? config.alpha : 1`.
The `visible` field is not touched. -/
def setupCommonParams (component : Handle) (config : TransformRecord) : Handle :=
  { x := jsOr config.x 0
    y := jsOr config.y 0
    scaleX := jsOr config.scaleX 1
    scaleY := jsOr config.scaleY 1
    angle := jsOr config.angle 0
    alpha := match config.alpha with
      | some v => v
      | none => 1
    visible := component.visible }

/-- The transform application as the specification words it (claim C1):
each field taken from the record when the key is present, else defaulted
(`x,y,angle` to 0, `scaleX,scaleY,alpha` to 1); in particular an explicit
`0` is kept for every field. Used only to compare against the source's
`setupCommonParams`. -/
def setupCommonParamsSpec (component : Handle) (config : TransformRecord) : Handle :=
  { x := config.x.getD 0
    y := config.y.getD 0
    scaleX := config.scaleX.getD 1
    scaleY := config.scaleY.getD 1
    angle := config.angle.getD 0
    alpha := config.alpha.getD 1
    visible := component.visible }

/-- A state's raw config object: mapping `childId → TransformRecord`,
in key-insertion order (the source's `Object<childId, StateConfig>`). -/
abbrev StateConfig : Type := List (String × TransformRecord)

/-- Embedding of the `State` decorator class: wraps a raw state config. -/
structure State where
  config : StateConfig
deriving DecidableEq

/-- `State.componentIds = Object.keys(config)`: the childIds enabled in this
state, in key order. -/
def State.componentIds (s : State) : List String :=
  s.config.map Prod.fst

/-- First-match association-list lookup, modelling a JS object property read
`obj[k]` (returning `undefined` as `none`). -/
def lookupA {α : Type} : List (String × α) → String → Option α
  | [], _ => none
  | p :: rest, k => if p.1 = k then some p.2 else lookupA rest k

/-- Modify the object stored under key `id` (a JS in-place mutation of the
object `obj[id]`); a no-op when the key is absent. -/
def modifyA {α : Type} (l : List (String × α)) (id : String) (f : α → α) :
    List (String × α) :=
  l.map (fun p => if p.1 = id then (p.1, f p.2) else p)

/-- The heap of child handles, keyed by `childId` (one JS object per child;
`childId`s are unique within one clip, so keys do not alias). -/
abbrev Store : Type := List (String × Handle)

/-- Worker for `uniq`: keep each element not yet seen, remembering what has
been kept so far (underscore's `_.uniq` keeps the first occurrence of each
value, tracking a `seen` array exactly like this). -/
def uniqAux (seen : List String) : List String → List String
  | [] => []
  | x :: xs => if x ∈ seen then uniqAux seen xs else x :: uniqAux (x :: seen) xs

/-- Underscore's `_.uniq(list)`: duplicates removed, first occurrence kept. -/
def uniq (l : List String) : List String :=
  uniqAux [] l

/-- Underscore's `_.difference(l, excluded)`: elements of `l` not in
`excluded`, in order, without deduplication. -/
def difference (l excluded : List String) : List String :=
  l.filter (fun x => x ∉ excluded)

/-- The union "in order of first appearance, duplicates removed", spelled
directly from the specification's words: walk the concatenated id lists in
order and append each id the first time it is seen. Used only to compare
against the source's `_.uniq(_.flatten(...))`. -/
def unionFirstAppearance (l : List String) : List String :=
  l.foldl (fun acc x => if x ∈ acc then acc else acc ++ [x]) []

/-- Embedding of the `StateManager` class state.  The `_clip` back-reference
is omitted (never read by the verified operations); `_components` holds
references into the shared `Store`, so it is kept as the list of registered
dynamic childIds (each naming its handle), and `_residentComponentsByKey`
maps a key to the childId naming the resident handle. -/
structure StateManager where
  dynamicChildrenIds : List String
  states : List (String × State)
  stateIds : List String
  components : List String
  componentKeys : List (String × String)
  residentComponentsByKey : List (String × String)
  currentStateId : Option String
  currentState : Option State
deriving DecidableEq

/-- Embedding of the `StateManager` constructor: for each `stateId` in
`config.states` (insertion order) push the id, build a `State`, collect its
`componentIds`; then `_dynamicChildrenIds = _.uniq(_.flatten(idsArrays))`. -/
def StateManager.init (statesCfg : List (String × StateConfig)) : StateManager :=
  { dynamicChildrenIds :=
      uniq (List.flatten (statesCfg.map (fun p => (State.mk p.2).componentIds)))
    states := statesCfg.map (fun p => (p.1, State.mk p.2))
    stateIds := statesCfg.map Prod.fst
    components := []
    componentKeys := []
    residentComponentsByKey := []
    currentStateId := none
    currentState := none }

/-- Embedding of `StateManager.addComponent(component, childId, childKey)`:
if `childId` is not among the dynamic ids the child is resident (stored under
its key, when a key was supplied); otherwise it is stored in `_components`
and its key (when supplied) in `_componentKeys`. -/
def StateManager.addComponent (m : StateManager) (childId : String)
    (childKey : Option String) : StateManager :=
  if childId ∉ m.dynamicChildrenIds then
    match childKey with
    | some k => { m with residentComponentsByKey := (k, childId) :: m.residentComponentsByKey }
    | none => m
  else
    { m with
      components := childId :: m.components
      componentKeys :=
        match childKey with
        | some k => (childId, k) :: m.componentKeys
        | none => m.componentKeys }

/-- Registration of a whole child list, in construction order: one
`addComponent` call per child (`childId`, optional key). -/
def addComponents (m : StateManager) (regs : List (String × Option String)) :
    StateManager :=
  regs.foldl (fun acc r => acc.addComponent r.1 r.2) m

/-- The scan inside `getActiveComponentByKey`: walk the active state's
`componentIds`; on the first id whose recorded key equals `key`, return
`this._components[id]` (which is `undefined`, i.e. `none`, when the id was
never registered — the scan stops there regardless). -/
def scanComponentIds (componentKeys : List (String × String))
    (components : List String) (key : String) : List String → Option String
  | [] => none
  | id :: rest =>
    if lookupA componentKeys id = some key then
      (if id ∈ components then some id else none)
    else scanComponentIds componentKeys components key rest

/-- Embedding of `StateManager.getActiveComponentByKey(key)`: resident map
first, then `null` when no state is active, else the scan over the active
state's componentIds. Returns the reference (childId) of the found handle. -/
def StateManager.getActiveComponentByKey (m : StateManager) (key : String) :
    Option String :=
  match lookupA m.residentComponentsByKey key with
  | some c => some c
  | none =>
    match m.currentState with
    | none => none
    | some st => scanComponentIds m.componentKeys m.components key st.componentIds

/-- The hide loop of `setupState`: `this._components[id].visible = false` for
each id; dereferencing an unregistered id throws (`none`). -/
def hidePass (components : List String) : Store → List String → Option Store
  | store, [] => some store
  | store, id :: rest =>
    if id ∈ components then
      hidePass components (modifyA store id (fun h => { h with visible := false })) rest
    else none

/-- The show loop of `setupState`: for each id set
`component.visible = true` then
`ComponentClip._setupCommonParams(component, this._currentState.config[id])`;
dereferencing an unregistered id, or reading a missing config entry, throws. -/
def showPass (components : List String) (config : StateConfig) :
    Store → List String → Option Store
  | store, [] => some store
  | store, id :: rest =>
    if id ∈ components then
      match lookupA config id with
      | some pt =>
        showPass components config
          (modifyA store id (fun h => setupCommonParams { h with visible := true } pt)) rest
      | none => none
    else none

/-- Embedding of `StateManager.setupState()`:
`idsToShow = _currentState.componentIds`,
`idsToHide = _.difference(_dynamicChildrenIds, idsToShow)`; hide pass then
show pass. Reading `_currentState` while it is `null` throws. -/
def StateManager.setupState (m : StateManager) (store : Store) : Option Store :=
  match m.currentState with
  | none => none
  | some st =>
    let idsToShow := st.componentIds
    let idsToHide := difference m.dynamicChildrenIds idsToShow
    match hidePass m.components store idsToHide with
    | none => none
    | some store₁ => showPass m.components st.config store₁ idsToShow

/-- Embedding of `StateManager.setState(stateId, force)`: idempotence guard,
unknown-state guard, then record the new current state and run
`setupState`. -/
def StateManager.setState (m : StateManager) (store : Store) (stateId : String)
    (force : Bool) : Option (StateManager × Store) :=
  if m.currentStateId = some stateId ∧ force = false then
    some (m, store)
  else
    match lookupA m.states stateId with
    | none => some (m, store)
    | some st =>
      let m' := { m with currentStateId := some stateId, currentState := some st }
      match m'.setupState store with
      | none => none
      | some store' => some (m', store')

/-- Embedding of `ComponentClip.applyChildParams(childId, params)`: return
unless `_childrenById.hasOwnProperty(childId)`, else
`_setupCommonParams(this._childrenById[childId], params)`.  `childrenIds` is
the key set of `_childrenById`; the handles live in the shared store. -/
def applyChildParams (childrenIds : List String) (store : Store)
    (childId : String) (params : TransformRecord) : Store :=
  if childId ∉ childrenIds then store
  else modifyA store childId (fun h => setupCommonParams h params)

/-! ## Association-list, `uniq` and `difference` lemmas -/

theorem lookupA_modifyA_self {α : Type} (l : List (String × α)) (id : String)
    (f : α → α) : lookupA (modifyA l id f) id = (lookupA l id).map f := by
  induction l with
  | nil => rfl
  | cons p rest ih =>
    by_cases hp : p.1 = id
    · simp [modifyA, lookupA, hp]
    · simp only [modifyA, List.map_cons, if_neg hp, lookupA, if_neg hp]
      simpa [modifyA] using ih

theorem lookupA_modifyA_ne {α : Type} (l : List (String × α)) (id j : String)
    (f : α → α) (hne : j ≠ id) : lookupA (modifyA l id f) j = lookupA l j := by
  induction l with
  | nil => rfl
  | cons p rest ih =>
    by_cases hp : p.1 = id
    · have hpj : ¬ p.1 = j := by simp [hp]; exact fun h => hne h.symm
      simp only [modifyA, List.map_cons, if_pos hp, lookupA, if_neg hpj]
      simpa [modifyA] using ih
    · simp only [modifyA, List.map_cons, if_neg hp, lookupA]
      by_cases hpj : p.1 = j
      · simp [hpj]
      · simp only [if_neg hpj]
        simpa [modifyA] using ih

theorem lookupA_isSome_iff {α : Type} (l : List (String × α)) (k : String) :
    (lookupA l k).isSome ↔ k ∈ l.map Prod.fst := by
  induction l with
  | nil => simp [lookupA]
  | cons p rest ih =>
    by_cases hp : p.1 = k
    · simp [lookupA, hp]
    · simp only [lookupA, if_neg hp, List.map_cons, List.mem_cons, ih]
      constructor
      · exact fun h => Or.inr h
      · rintro (h | h)
        · exact absurd h.symm hp
        · exact h

theorem lookupA_mem {α : Type} (l : List (String × α)) (k : String) (v : α)
    (h : lookupA l k = some v) : (k, v) ∈ l := by
  induction l with
  | nil => simp [lookupA] at h
  | cons p rest ih =>
    by_cases hp : p.1 = k
    · simp only [lookupA, if_pos hp, Option.some.injEq] at h
      have hpv : p = (k, v) := by
        cases p
        simp only at hp h
        simp [hp, h]
      rw [← hpv]
      exact List.mem_cons_self _ _
    · simp only [lookupA, if_neg hp] at h
      exact List.mem_cons_of_mem _ (ih h)

theorem lookupA_map_pair {α β : Type} (f : α → β) (l : List (String × α))
    (k : String) :
    lookupA (l.map (fun p => (p.1, f p.2))) k = (lookupA l k).map f := by
  induction l with
  | nil => rfl
  | cons p rest ih =>
    by_cases hp : p.1 = k
    · simp [lookupA, hp]
    · simp only [List.map_cons, lookupA, if_neg hp]
      exact ih

theorem mem_uniqAux (l : List String) :
    ∀ (seen : List String) (a : String),
      a ∈ uniqAux seen l ↔ a ∈ l ∧ a ∉ seen := by
  induction l with
  | nil => intro seen a; simp [uniqAux]
  | cons x xs ih =>
    intro seen a
    by_cases hx : x ∈ seen
    · simp only [uniqAux, if_pos hx, ih, List.mem_cons]
      constructor
      · rintro ⟨ha, hs⟩; exact ⟨Or.inr ha, hs⟩
      · rintro ⟨ha | ha, hs⟩
        · exact absurd (ha ▸ hx) hs
        · exact ⟨ha, hs⟩
    · simp only [uniqAux, if_neg hx, List.mem_cons, ih]
      constructor
      · rintro (rfl | ⟨ha, hs⟩)
        · exact ⟨Or.inl rfl, hx⟩
        · simp only [List.mem_cons, not_or] at hs
          exact ⟨Or.inr ha, hs.2⟩
      · rintro ⟨rfl | ha, hs⟩
        · exact Or.inl rfl
        · by_cases hax : a = x
          · exact Or.inl hax
          · exact Or.inr ⟨ha, by simp [List.mem_cons, hax, hs]⟩

theorem mem_uniq (l : List String) (a : String) : a ∈ uniq l ↔ a ∈ l := by
  simp [uniq, mem_uniqAux]

theorem nodup_uniqAux (l : List String) :
    ∀ seen : List String, (uniqAux seen l).Nodup := by
  induction l with
  | nil => intro seen; simp [uniqAux]
  | cons x xs ih =>
    intro seen
    by_cases hx : x ∈ seen
    · simpa [uniqAux, if_pos hx] using ih seen
    · rw [show uniqAux seen (x :: xs) = x :: uniqAux (x :: seen) xs from by
            simp [uniqAux, if_neg hx]]
      rw [List.nodup_cons]
      refine ⟨?_, ih (x :: seen)⟩
      intro hmem
      exact absurd ((mem_uniqAux xs (x :: seen) x).mp hmem).2 (by simp)

theorem nodup_uniq (l : List String) : (uniq l).Nodup := by
  simpa [uniq] using nodup_uniqAux l []

theorem uniqAux_congr (l : List String) :
    ∀ seen seen' : List String, (∀ a, a ∈ seen ↔ a ∈ seen') →
      uniqAux seen l = uniqAux seen' l := by
  induction l with
  | nil => intro seen seen' _; rfl
  | cons x xs ih =>
    intro seen seen' h
    by_cases hx : x ∈ seen
    · rw [uniqAux, uniqAux, if_pos hx, if_pos ((h x).mp hx)]
      exact ih seen seen' h
    · rw [uniqAux, uniqAux, if_neg hx, if_neg (fun hc => hx ((h x).mpr hc))]
      refine congrArg (x :: ·) (ih _ _ ?_)
      intro a
      simp only [List.mem_cons]
      exact or_congr Iff.rfl (h a)

theorem foldl_union_eq_uniqAux (l : List String) :
    ∀ acc : List String,
      l.foldl (fun acc x => if x ∈ acc then acc else acc ++ [x]) acc =
        acc ++ uniqAux acc l := by
  induction l with
  | nil => intro acc; simp [uniqAux]
  | cons x xs ih =>
    intro acc
    by_cases hx : x ∈ acc
    · simp only [List.foldl_cons, if_pos hx, uniqAux]
      exact ih acc
    · simp only [List.foldl_cons, if_neg hx, uniqAux]
      rw [ih (acc ++ [x])]
      rw [uniqAux_congr xs (acc ++ [x]) (x :: acc) (by intro a; simp [List.mem_append, or_comm])]
      simp

theorem unionFirstAppearance_eq_uniq (l : List String) :
    unionFirstAppearance l = uniq l := by
  simpa using foldl_union_eq_uniqAux l []

theorem mem_difference (l excluded : List String) (a : String) :
    a ∈ difference l excluded ↔ a ∈ l ∧ a ∉ excluded := by
  simp [difference]

/-! ## Hide/show pass characterizations -/

theorem map_hide_idem (o : Option Handle) :
    (o.map (fun h => { h with visible := false })).map
        (fun h => { h with visible := false }) =
      o.map (fun h => { h with visible := false }) := by
  cases o <;> rfl

theorem map_show_idem (o : Option Handle) (pt : TransformRecord) :
    (o.map (fun h => setupCommonParams { h with visible := true } pt)).map
        (fun h => setupCommonParams { h with visible := true } pt) =
      o.map (fun h => setupCommonParams { h with visible := true } pt) := by
  cases o <;> rfl

theorem hidePass_lookup (comps : List String) :
    ∀ (hs : List String) (store store₂ : Store),
      hidePass comps store hs = some store₂ →
      ∀ j, lookupA store₂ j =
        if j ∈ hs then (lookupA store j).map (fun h => { h with visible := false })
        else lookupA store j := by
  intro hs
  induction hs with
  | nil =>
    intro store store₂ h j
    simp only [hidePass, Option.some.injEq] at h
    simp [← h]
  | cons id rest ih =>
    intro store store₂ h j
    by_cases hc : id ∈ comps
    · simp only [hidePass, if_pos hc] at h
      have hj := ih _ _ h j
      by_cases hjr : j ∈ rest
      · by_cases hji : j = id
        · subst hji
          rw [hj, if_pos hjr, lookupA_modifyA_self, map_hide_idem,
            if_pos (List.mem_cons_self j rest)]
        · rw [hj, if_pos hjr, lookupA_modifyA_ne _ _ _ _ hji,
            if_pos (List.mem_cons_of_mem _ hjr)]
      · by_cases hji : j = id
        · subst hji
          rw [hj, if_neg hjr, lookupA_modifyA_self,
            if_pos (List.mem_cons_self j rest)]
        · rw [hj, if_neg hjr, lookupA_modifyA_ne _ _ _ _ hji,
            if_neg (by simp [List.mem_cons, hji, hjr])]
    · simp [hidePass, if_neg hc] at h

theorem hidePass_isSome (comps : List String) :
    ∀ (hs : List String) (store : Store),
      (∀ id ∈ hs, id ∈ comps) → (hidePass comps store hs).isSome := by
  intro hs
  induction hs with
  | nil => intro store _; simp [hidePass]
  | cons id rest ih =>
    intro store hall
    rw [hidePass, if_pos (hall id (List.mem_cons_self _ _))]
    exact ih _ (fun i hi => hall i (List.mem_cons_of_mem _ hi))

theorem showPass_lookup (comps : List String) (cfg : StateConfig) :
    ∀ (ids : List String) (store store₂ : Store),
      showPass comps cfg store ids = some store₂ →
      ∀ j,
        (j ∉ ids → lookupA store₂ j = lookupA store j) ∧
        (j ∈ ids → ∃ pt, lookupA cfg j = some pt ∧
            lookupA store₂ j =
              (lookupA store j).map
                (fun h => setupCommonParams { h with visible := true } pt)) := by
  intro ids
  induction ids with
  | nil =>
    intro store store₂ h j
    simp only [showPass, Option.some.injEq] at h
    simp [← h]
  | cons id rest ih =>
    intro store store₂ h j
    by_cases hc : id ∈ comps
    · rw [showPass, if_pos hc] at h
      rcases hcfg : lookupA cfg id with _ | pt₀
      · rw [hcfg] at h; exact absurd h (by simp)
      · rw [hcfg] at h
        have hj := ih _ _ h j
        constructor
        · intro hnot
          have hji : j ≠ id := fun hh => hnot (hh ▸ List.mem_cons_self id rest)
          have hjr : j ∉ rest := fun hh => hnot (List.mem_cons_of_mem _ hh)
          rw [hj.1 hjr, lookupA_modifyA_ne _ _ _ _ hji]
        · intro hmem
          by_cases hjr : j ∈ rest
          · rcases hj.2 hjr with ⟨pt, hpt, hst⟩
            by_cases hji : j = id
            · subst hji
              rw [hcfg] at hpt
              have hpp : pt₀ = pt := Option.some.inj hpt
              subst hpp
              refine ⟨pt₀, hcfg, ?_⟩
              rw [hst, lookupA_modifyA_self, map_show_idem]
            · exact ⟨pt, hpt, by rw [hst, lookupA_modifyA_ne _ _ _ _ hji]⟩
          · have hji : j = id := by
              rcases List.mem_cons.mp hmem with h' | h'
              · exact h'
              · exact absurd h' hjr
            subst hji
            refine ⟨pt₀, hcfg, ?_⟩
            rw [hj.1 hjr, lookupA_modifyA_self]
    · rw [showPass, if_neg hc] at h
      exact absurd h (by simp)

theorem showPass_isSome (comps : List String) (cfg : StateConfig) :
    ∀ (ids : List String) (store : Store),
      (∀ id ∈ ids, id ∈ comps ∧ (lookupA cfg id).isSome) →
      (showPass comps cfg store ids).isSome := by
  intro ids
  induction ids with
  | nil => intro store _; simp [showPass]
  | cons id rest ih =>
    intro store hall
    have hid := hall id (List.mem_cons_self _ _)
    rw [showPass, if_pos hid.1]
    rcases hcfg : lookupA cfg id with _ | pt
    · rw [hcfg] at hid; simp at hid
    · exact ih _ (fun i hi => hall i (List.mem_cons_of_mem _ hi))

/-! ## `addComponent` / `addComponents` / constructor bookkeeping -/

theorem addComponent_fields (m : StateManager) (cid : String) (k : Option String) :
    (m.addComponent cid k).dynamicChildrenIds = m.dynamicChildrenIds ∧
    (m.addComponent cid k).states = m.states ∧
    (m.addComponent cid k).stateIds = m.stateIds ∧
    (m.addComponent cid k).currentStateId = m.currentStateId ∧
    (m.addComponent cid k).currentState = m.currentState := by
  unfold StateManager.addComponent
  split
  · split <;> exact ⟨rfl, rfl, rfl, rfl, rfl⟩
  · exact ⟨rfl, rfl, rfl, rfl, rfl⟩

theorem mem_components_addComponent (m : StateManager) (cid j : String)
    (k : Option String) :
    j ∈ (m.addComponent cid k).components ↔
      j ∈ m.components ∨ (j = cid ∧ cid ∈ m.dynamicChildrenIds) := by
  unfold StateManager.addComponent
  split
  · rename_i hnot
    constructor
    · intro h
      split at h <;> exact Or.inl h
    · rintro (h | ⟨rfl, hdyn⟩)
      · split <;> exact h
      · exact absurd hdyn hnot
  · rename_i hdyn
    rw [not_not] at hdyn
    simp only [List.mem_cons]
    constructor
    · rintro (rfl | h)
      · exact Or.inr ⟨rfl, hdyn⟩
      · exact Or.inl h
    · rintro (h | ⟨rfl, _⟩)
      · exact Or.inr h
      · exact Or.inl rfl

theorem addComponents_fields (regs : List (String × Option String)) :
    ∀ m : StateManager,
      (addComponents m regs).dynamicChildrenIds = m.dynamicChildrenIds ∧
      (addComponents m regs).states = m.states ∧
      (addComponents m regs).stateIds = m.stateIds ∧
      (addComponents m regs).currentStateId = m.currentStateId ∧
      (addComponents m regs).currentState = m.currentState := by
  induction regs with
  | nil => intro m; exact ⟨rfl, rfl, rfl, rfl, rfl⟩
  | cons r rest ih =>
    intro m
    have h₁ := addComponent_fields m r.1 r.2
    have h₂ := ih (m.addComponent r.1 r.2)
    simp only [addComponents, List.foldl_cons] at *
    exact ⟨h₂.1.trans h₁.1, h₂.2.1.trans h₁.2.1, h₂.2.2.1.trans h₁.2.2.1,
      h₂.2.2.2.1.trans h₁.2.2.2.1, h₂.2.2.2.2.trans h₁.2.2.2.2⟩

theorem mem_components_addComponents (regs : List (String × Option String)) :
    ∀ (m : StateManager) (j : String),
      j ∈ (addComponents m regs).components ↔
        j ∈ m.components ∨
          (j ∈ regs.map Prod.fst ∧ j ∈ m.dynamicChildrenIds) := by
  induction regs with
  | nil => intro m j; simp [addComponents]
  | cons r rest ih =>
    intro m j
    simp only [addComponents, List.foldl_cons] at *
    rw [ih (m.addComponent r.1 r.2) j, mem_components_addComponent,
      (addComponent_fields m r.1 r.2).1]
    simp only [List.map_cons, List.mem_cons]
    constructor
    · rintro ((h | ⟨rfl, hdyn⟩) | ⟨hm, hdyn⟩)
      · exact Or.inl h
      · exact Or.inr ⟨Or.inl rfl, hdyn⟩
      · exact Or.inr ⟨Or.inr hm, hdyn⟩
    · rintro (h | ⟨rfl | hm, hdyn⟩)
      · exact Or.inl (Or.inl h)
      · exact Or.inl (Or.inr ⟨rfl, hdyn⟩)
      · exact Or.inr ⟨hm, hdyn⟩

theorem lookupA_init_states (statesCfg : List (String × StateConfig))
    (sid : String) :
    lookupA (StateManager.init statesCfg).states sid =
      (lookupA statesCfg sid).map State.mk := by
  exact lookupA_map_pair State.mk statesCfg sid

theorem mem_dyn_init (statesCfg : List (String × StateConfig)) (j : String) :
    j ∈ (StateManager.init statesCfg).dynamicChildrenIds ↔
      ∃ p ∈ statesCfg, j ∈ p.2.map Prod.fst := by
  simp only [StateManager.init, mem_uniq, List.mem_flatten, List.mem_map]
  constructor
  · rintro ⟨l, ⟨p, hp, rfl⟩, hj⟩
    refine ⟨p, hp, ?_⟩
    simpa [State.componentIds] using hj
  · rintro ⟨p, hp, hj⟩
    refine ⟨(State.mk p.2).componentIds, ⟨p, hp, rfl⟩, ?_⟩
    simpa [State.componentIds] using hj

theorem componentIds_subset_dyn_init (statesCfg : List (String × StateConfig))
    (sid j : String) (st : State)
    (hst : lookupA (StateManager.init statesCfg).states sid = some st)
    (hj : j ∈ st.componentIds) :
    j ∈ (StateManager.init statesCfg).dynamicChildrenIds := by
  rw [lookupA_init_states] at hst
  rcases hcfg : lookupA statesCfg sid with _ | cfg
  · rw [hcfg] at hst; simp at hst
  · rw [hcfg] at hst
    have hstc : st = State.mk cfg := (Option.some.inj hst).symm
    subst hstc
    exact (mem_dyn_init statesCfg j).mpr
      ⟨(sid, cfg), lookupA_mem _ _ _ hcfg, hj⟩

/-! ## `setupState` / `setState` characterizations -/

theorem setState_transition (m m' : StateManager) (store store' : Store)
    (sid : String) (force : Bool) (st : State)
    (hdecl : lookupA m.states sid = some st)
    (hguard : ¬(m.currentStateId = some sid ∧ force = false))
    (hrun : m.setState store sid force = some (m', store')) :
    m' = { m with currentStateId := some sid, currentState := some st } ∧
    StateManager.setupState
        { m with currentStateId := some sid, currentState := some st } store =
      some store' := by
  rw [StateManager.setState, if_neg hguard, hdecl] at hrun
  simp only at hrun
  cases hsetup : StateManager.setupState
      { m with currentStateId := some sid, currentState := some st } store with
  | none => rw [hsetup] at hrun; exact absurd hrun (by simp)
  | some s' =>
    rw [hsetup] at hrun
    have := Option.some.inj hrun
    have hm : m' = { m with currentStateId := some sid, currentState := some st } :=
      (congrArg Prod.fst this).symm
    have hs : s' = store' := congrArg Prod.snd this
    exact ⟨hm, congrArg some hs⟩

theorem setupState_lookup (m : StateManager) (st : State) (store store' : Store)
    (hcur : m.currentState = some st)
    (hrun : m.setupState store = some store') :
    ∀ j,
      (j ∈ st.componentIds →
        ∃ pt, lookupA st.config j = some pt ∧
          lookupA store' j =
            (lookupA store j).map
              (fun h => setupCommonParams { h with visible := true } pt)) ∧
      (j ∈ m.dynamicChildrenIds → j ∉ st.componentIds →
        lookupA store' j =
          (lookupA store j).map (fun h => { h with visible := false })) ∧
      (j ∉ m.dynamicChildrenIds → j ∉ st.componentIds →
        lookupA store' j = lookupA store j) := by
  rw [StateManager.setupState, hcur] at hrun
  simp only at hrun
  cases hhide : hidePass m.components store
      (difference m.dynamicChildrenIds st.componentIds) with
  | none => rw [hhide] at hrun; exact absurd hrun (by simp)
  | some store₁ =>
    rw [hhide] at hrun
    intro j
    have hhl := hidePass_lookup m.components _ _ _ hhide j
    have hsl := showPass_lookup m.components st.config _ _ _ hrun j
    refine ⟨?_, ?_, ?_⟩
    · intro hshow
      have hnh : j ∉ difference m.dynamicChildrenIds st.componentIds := by
        rw [mem_difference]
        rintro ⟨_, hc⟩
        exact hc hshow
      rcases hsl.2 hshow with ⟨pt, hpt, hst⟩
      rw [if_neg hnh] at hhl
      exact ⟨pt, hpt, by rw [hst, hhl]⟩
    · intro hdyn hnshow
      have hh : j ∈ difference m.dynamicChildrenIds st.componentIds :=
        (mem_difference _ _ _).mpr ⟨hdyn, hnshow⟩
      rw [if_pos hh] at hhl
      rw [hsl.1 hnshow, hhl]
    · intro hndyn hnshow
      have hnh : j ∉ difference m.dynamicChildrenIds st.componentIds := by
        rw [mem_difference]
        rintro ⟨hd, _⟩
        exact hndyn hd
      rw [if_neg hnh] at hhl
      rw [hsl.1 hnshow, hhl]

theorem setupState_isSome (m : StateManager) (st : State) (store : Store)
    (hcur : m.currentState = some st)
    (hdyn : ∀ id ∈ m.dynamicChildrenIds, id ∈ m.components)
    (hshow : ∀ id ∈ st.componentIds, id ∈ m.components) :
    (m.setupState store).isSome := by
  rw [StateManager.setupState, hcur]
  simp only
  have hh : (hidePass m.components store
      (difference m.dynamicChildrenIds st.componentIds)).isSome := by
    refine hidePass_isSome _ _ _ ?_
    intro id hid
    exact hdyn id ((mem_difference _ _ _).mp hid).1
  cases hhide : hidePass m.components store
      (difference m.dynamicChildrenIds st.componentIds) with
  | none => rw [hhide] at hh; simp at hh
  | some store₁ =>
    refine showPass_isSome _ _ _ _ ?_
    intro id hid
    refine ⟨hshow id hid, ?_⟩
    rw [lookupA_isSome_iff]
    exact hid

/-! ## Concrete fixtures (used by witnesses and counterexamples) -/

/-- State A of the worked example: enables child `c1` at `x = 10`. -/
def cfgA : StateConfig := [("c1", { x := some 10 })]

/-- State B of the worked example: enables child `c2` at `x = 20`. -/
def cfgB : StateConfig := [("c2", { x := some 20 })]

/-- The worked example's `config.states`: two states over `{c1, c2}`. -/
def statesCfgEx : List (String × StateConfig) := [("A", cfgA), ("B", cfgB)]

/-- Registration sequence: dynamic `c1`/`c2` with keys, resident `c3` with
key `r1`. -/
def regsEx : List (String × Option String) :=
  [("c1", some "k1"), ("c2", some "k2"), ("c3", some "r1")]

/-- The worked example's manager, freshly constructed and populated. -/
def managerEx : StateManager :=
  addComponents (StateManager.init statesCfgEx) regsEx

/-- A handle in its freshly created pose. -/
def handleEx : Handle :=
  { x := 0, y := 0, scaleX := 1, scaleY := 1, angle := 0, alpha := 1, visible := true }

/-- The worked example's heap: three children, default pose. -/
def storeEx : Store := [("c1", handleEx), ("c2", handleEx), ("c3", handleEx)]

/-- The manager after `setState("A")` on the worked example. -/
def managerExA : StateManager :=
  { managerEx with currentStateId := some "A", currentState := some (State.mk cfgA) }

/-- The heap after `setState("A")` on the worked example: `c1` shown at its
state-A transform, `c2` hidden, `c3` untouched. -/
def storeExA : Store :=
  [("c1", { x := 10, y := 0, scaleX := 1, scaleY := 1, angle := 0, alpha := 1, visible := true }),
   ("c2", { handleEx with visible := false }),
   ("c3", handleEx)]

/-- A manager in which the key `btn` names both a resident child `r1` and a
dynamic child `d1` belonging to the active state. -/
def managerKeyClash : StateManager :=
  { dynamicChildrenIds := ["d1"]
    states := [("A", State.mk [("d1", {})])]
    stateIds := ["A"]
    components := ["d1"]
    componentKeys := [("d1", "btn")]
    residentComponentsByKey := [("btn", "r1")]
    currentStateId := some "A"
    currentState := some (State.mk [("d1", {})]) }

/-! ## Claim C1 — transform defaulting -/

/-- Claim C1, counterexample: the claim as stated (formalised by
`setupCommonParamsSpec`) fails on the code at the concrete record
`{scaleX: 0}` — the code's `config.scaleX || 1` replaces the explicitly
supplied `0` by the default `1`. -/
theorem setupCommonParams_explicit_zero_scale_counterexample :
    setupCommonParams handleEx { scaleX := some 0 } ≠
      setupCommonParamsSpec handleEx { scaleX := some 0 } := by
  decide

/-- Claim C1, amended: `_setupCommonParams` sets `x`, `y`, `angle` to the
record's value when present else `0`, sets `alpha` to the record's value
when the key is present else `1`, and sets `scaleX`, `scaleY` to the
record's value when present **and nonzero** else `1` (JS `||` defaulting:
an explicit `0` for `scaleX`/`scaleY` is replaced by the default `1`);
`visible` is untouched. -/
theorem setupCommonParams_defaulting (component : Handle) (config : TransformRecord) :
    (setupCommonParams component config).x = config.x.getD 0 ∧
    (setupCommonParams component config).y = config.y.getD 0 ∧
    (setupCommonParams component config).scaleX =
      (if config.scaleX.getD 1 = 0 then 1 else config.scaleX.getD 1) ∧
    (setupCommonParams component config).scaleY =
      (if config.scaleY.getD 1 = 0 then 1 else config.scaleY.getD 1) ∧
    (setupCommonParams component config).angle = config.angle.getD 0 ∧
    (setupCommonParams component config).alpha = config.alpha.getD 1 ∧
    (setupCommonParams component config).visible = component.visible := by
  refine ⟨?_, ?_, ?_, ?_, ?_, ?_, rfl⟩
  · rcases hf : config.x with _ | v
    · simp [setupCommonParams, jsOr, hf]
    · by_cases hv : v = 0 <;> simp [setupCommonParams, jsOr, hf, hv]
  · rcases hf : config.y with _ | v
    · simp [setupCommonParams, jsOr, hf]
    · by_cases hv : v = 0 <;> simp [setupCommonParams, jsOr, hf, hv]
  · rcases hf : config.scaleX with _ | v
    · simp [setupCommonParams, jsOr, hf]
    · by_cases hv : v = 0 <;> simp [setupCommonParams, jsOr, hf, hv]
  · rcases hf : config.scaleY with _ | v
    · simp [setupCommonParams, jsOr, hf]
    · by_cases hv : v = 0 <;> simp [setupCommonParams, jsOr, hf, hv]
  · rcases hf : config.angle with _ | v
    · simp [setupCommonParams, jsOr, hf]
    · by_cases hv : v = 0 <;> simp [setupCommonParams, jsOr, hf, hv]
  · rcases hf : config.alpha with _ | v <;> simp [setupCommonParams, hf]

/-! ## Claim C4 — unknown state is a silent, atomic no-op -/

/-- Claim C4: when `stateId` is not a declared state, `setState` (any
`force`) returns without error, with the manager (active state id and
state included) and every child handle unchanged. -/
theorem setState_unknown_state_noop (m : StateManager) (store : Store)
    (stateId : String) (force : Bool)
    (h : lookupA m.states stateId = none) :
    m.setState store stateId force = some (m, store) := by
  rw [StateManager.setState]
  by_cases hg : m.currentStateId = some stateId ∧ force = false
  · rw [if_pos hg]
  · rw [if_neg hg, h]

/-- Claim C4, witness at a concrete undeclared state id. -/
theorem setState_unknown_state_noop_witness :
    managerEx.setState storeEx "nosuch" true = some (managerEx, storeEx) :=
  setState_unknown_state_noop managerEx storeEx "nosuch" true (by decide)

/-! ## Claim C7 — resident lookup precedence -/

/-- Claim C7: when a key is registered both for a resident child and for a
dynamic child that belongs to the active state, `getActiveComponentByKey`
returns the resident handle — the resident map is consulted first and a hit
short-circuits the scan of the active state's componentIds. -/
theorem getActiveComponentByKey_resident_precedence (m : StateManager)
    (key r d : String) (st : State)
    (hres : lookupA m.residentComponentsByKey key = some r)
    (hact : m.currentState = some st)
    (hd : d ∈ st.componentIds)
    (hdk : lookupA m.componentKeys d = some key) :
    m.getActiveComponentByKey key = some r := by
  rw [StateManager.getActiveComponentByKey, hres]

/-- Claim C7, witness: key `btn` names resident `r1` and dynamic `d1` in the
active state; the resident wins. -/
theorem getActiveComponentByKey_resident_precedence_witness :
    managerKeyClash.getActiveComponentByKey "btn" = some "r1" :=
  getActiveComponentByKey_resident_precedence managerKeyClash "btn" "r1" "d1"
    (State.mk [("d1", {})]) (by decide) (by decide) (by decide) (by decide)

/-! ## Claim C8 — lookup before any state is active -/

/-- Claim C8: before any successful `setState` (no active state), a key
registered only for dynamic children (absent from the resident map) yields
`none`, while a key present in the resident map yields its handle — the
latter regardless of whether any state is active. -/
theorem getActiveComponentByKey_no_active_state (m : StateManager) (key : String) :
    (m.currentState = none →
      lookupA m.residentComponentsByKey key = none →
      m.getActiveComponentByKey key = none) ∧
    (∀ r, lookupA m.residentComponentsByKey key = some r →
      m.getActiveComponentByKey key = some r) := by
  constructor
  · intro hcur hres
    rw [StateManager.getActiveComponentByKey, hres, hcur]
  · intro r hres
    rw [StateManager.getActiveComponentByKey, hres]

/-- Claim C8, witness: on the freshly built example manager (no state ever
set), the dynamic-only key `k1` yields `none` while resident key `r1` yields
its handle. -/
theorem getActiveComponentByKey_no_active_state_witness :
    managerEx.getActiveComponentByKey "k1" = none ∧
    managerEx.getActiveComponentByKey "r1" = some "c3" :=
  ⟨(getActiveComponentByKey_no_active_state managerEx "k1").1 (by decide) (by decide),
   (getActiveComponentByKey_no_active_state managerEx "r1").2 "c3" (by decide)⟩

/-! ## Claim C10 — applyChildParams -/

/-- Claim C10: `applyChildParams` on an unknown `childId` returns without
error and changes nothing; on a known `childId` it applies the partial
transform (with the code's defaulting) to that handle directly — no
condition on visibility or active-state membership — leaving every other
handle unchanged. -/
theorem applyChildParams_behavior (childrenIds : List String) (store : Store)
    (childId j : String) (params : TransformRecord) :
    (childId ∉ childrenIds →
      applyChildParams childrenIds store childId params = store) ∧
    (childId ∈ childrenIds →
      lookupA (applyChildParams childrenIds store childId params) childId =
        (lookupA store childId).map (fun h => setupCommonParams h params) ∧
      (j ≠ childId →
        lookupA (applyChildParams childrenIds store childId params) j =
          lookupA store j)) := by
  constructor
  · intro hnot
    rw [applyChildParams, if_pos hnot]
  · intro hmem
    rw [applyChildParams, if_neg (by simpa using hmem)]
    exact ⟨lookupA_modifyA_self _ _ _, fun hj => lookupA_modifyA_ne _ _ _ _ hj⟩

/-- Claim C10, witness: applying `{x: 5}` to unknown `zz` changes nothing;
applying it to known `c1` rewrites exactly `c1`'s handle. -/
theorem applyChildParams_behavior_witness :
    applyChildParams ["c1"] storeEx "zz" { x := some 5 } = storeEx ∧
    lookupA (applyChildParams ["c1"] storeEx "c1" { x := some 5 }) "c1" =
      (lookupA storeEx "c1").map
        (fun h => setupCommonParams h { x := some 5 }) :=
  ⟨(applyChildParams_behavior ["c1"] storeEx "zz" "c2" { x := some 5 }).1 (by decide),
   ((applyChildParams_behavior ["c1"] storeEx "c1" "c2" { x := some 5 }).2 (by decide)).1⟩

/-! ## Claim C2 — show/hide on a successful transition -/

/-- Claim C2: on a successful transition to declared state `st` (the guard
not taken), every dynamic childId in `st.componentIds` ends visible with
`st`'s partial transform applied to its handle, and every dynamic childId
outside `st.componentIds` ends hidden with its transform fields untouched;
both effects are complete in the heap `setState` returns. -/
theorem setState_shows_and_hides (m m' : StateManager) (store store' : Store)
    (sid id : String) (force : Bool) (st : State)
    (hdecl : lookupA m.states sid = some st)
    (hguard : m.currentStateId ≠ some sid ∨ force = true)
    (hrun : m.setState store sid force = some (m', store'))
    (hid : id ∈ m.dynamicChildrenIds) :
    (id ∈ st.componentIds →
      ∃ pt, lookupA st.config id = some pt ∧
        lookupA store' id =
          (lookupA store id).map
            (fun h => setupCommonParams { h with visible := true } pt)) ∧
    (id ∉ st.componentIds →
      lookupA store' id =
        (lookupA store id).map (fun h => { h with visible := false })) := by
  have hg : ¬(m.currentStateId = some sid ∧ force = false) := by
    rintro ⟨h1, h2⟩
    rcases hguard with hg | hg
    · exact hg h1
    · rw [hg] at h2
      exact absurd h2 (by simp)
  obtain ⟨hm', hsetup⟩ := setState_transition m m' store store' sid force st hdecl hg hrun
  have hl := setupState_lookup
    { m with currentStateId := some sid, currentState := some st } st store store'
    rfl hsetup id
  exact ⟨fun hshow => hl.1 hshow, fun hnshow => hl.2.1 hid hnshow⟩

/-- Claim C2, witness on the worked example: after `setState("A")`, `c1`
(member of A) is shown with its transform, and since `c1 ∈ A` the hidden
branch is vacuous; a second application at `c2` exercises the hidden
branch. -/
theorem setState_shows_and_hides_witness :
    (("c1" ∈ (State.mk cfgA).componentIds →
      ∃ pt, lookupA (State.mk cfgA).config "c1" = some pt ∧
        lookupA storeExA "c1" =
          (lookupA storeEx "c1").map
            (fun h => setupCommonParams { h with visible := true } pt)) ∧
    ("c1" ∉ (State.mk cfgA).componentIds →
      lookupA storeExA "c1" =
        (lookupA storeEx "c1").map (fun h => { h with visible := false }))) ∧
    (("c2" ∈ (State.mk cfgA).componentIds →
      ∃ pt, lookupA (State.mk cfgA).config "c2" = some pt ∧
        lookupA storeExA "c2" =
          (lookupA storeEx "c2").map
            (fun h => setupCommonParams { h with visible := true } pt)) ∧
    ("c2" ∉ (State.mk cfgA).componentIds →
      lookupA storeExA "c2" =
        (lookupA storeEx "c2").map (fun h => { h with visible := false }))) :=
  ⟨setState_shows_and_hides managerEx managerExA storeEx storeExA "A" "c1" false
      (State.mk cfgA) (by decide) (Or.inl (by decide)) (by decide) (by decide),
   setState_shows_and_hides managerEx managerExA storeEx storeExA "A" "c2" false
      (State.mk cfgA) (by decide) (Or.inl (by decide)) (by decide) (by decide)⟩

/-! ## Claim C3 — dynamic/resident classification -/

/-- Claim C3: a registered childId is stored in the dynamic components map
iff it appears in the key-set of at least one declared state's config
(otherwise it is resident and kept out of that map), and
`dynamicChildrenIds` is the duplicate-free union, in order of first
appearance, of all declared states' componentIds. -/
theorem dynamic_classification (statesCfg : List (String × StateConfig))
    (regs : List (String × Option String)) (childId : String) :
    (childId ∈ (addComponents (StateManager.init statesCfg) regs).components ↔
      childId ∈ regs.map Prod.fst ∧ ∃ p ∈ statesCfg, childId ∈ p.2.map Prod.fst) ∧
    (childId ∈ (StateManager.init statesCfg).dynamicChildrenIds ↔
      ∃ p ∈ statesCfg, childId ∈ p.2.map Prod.fst) ∧
    (StateManager.init statesCfg).dynamicChildrenIds =
      unionFirstAppearance
        (List.flatten (statesCfg.map (fun p => p.2.map Prod.fst))) ∧
    (StateManager.init statesCfg).dynamicChildrenIds.Nodup := by
  refine ⟨?_, mem_dyn_init statesCfg childId, ?_, nodup_uniq _⟩
  · rw [mem_components_addComponents, mem_dyn_init]
    simp only [StateManager.init, List.not_mem_nil, false_or]
  · rw [unionFirstAppearance_eq_uniq]
    rfl

/-! ## Claim C5 — resident children are never touched by state switches -/

/-- Claim C5: for a childId classified resident (not among the constructed
manager's dynamic ids), no `setState` call — any target state, any `force` —
changes its handle in any way (visible or transform fields). -/
theorem setState_resident_untouched (statesCfg : List (String × StateConfig))
    (regs : List (String × Option String)) (store store' : Store)
    (m' : StateManager) (sid r : String) (force : Bool)
    (hres : r ∉ (StateManager.init statesCfg).dynamicChildrenIds)
    (hrun : (addComponents (StateManager.init statesCfg) regs).setState
        store sid force = some (m', store')) :
    lookupA store' r = lookupA store r := by
  set M := addComponents (StateManager.init statesCfg) regs with hM
  have hMdyn : M.dynamicChildrenIds =
      (StateManager.init statesCfg).dynamicChildrenIds :=
    (addComponents_fields regs _).1
  have hMstates : M.states = (StateManager.init statesCfg).states :=
    (addComponents_fields regs _).2.1
  by_cases hg : M.currentStateId = some sid ∧ force = false
  · rw [StateManager.setState, if_pos hg] at hrun
    have hs : store = store' := congrArg Prod.snd (Option.some.inj hrun)
    rw [← hs]
  · cases hdecl : lookupA M.states sid with
    | none =>
      rw [StateManager.setState, if_neg hg, hdecl] at hrun
      have hs : store = store' := congrArg Prod.snd (Option.some.inj hrun)
      rw [← hs]
    | some st =>
      obtain ⟨hm', hsetup⟩ :=
        setState_transition M m' store store' sid force st hdecl hg hrun
      have hl := setupState_lookup
        { M with currentStateId := some sid, currentState := some st } st
        store store' rfl hsetup r
      have hrshow : r ∉ st.componentIds := by
        intro hc
        exact hres (componentIds_subset_dyn_init statesCfg sid r st
          (by rw [← hMstates]; exact hdecl) hc)
      refine hl.2.2 ?_ hrshow
      show r ∉ M.dynamicChildrenIds
      rw [hMdyn]
      exact hres

/-- Claim C5, witness: on the worked example's `setState("A")`, the resident
child `c3`'s handle is unchanged. -/
theorem setState_resident_untouched_witness :
    lookupA storeExA "c3" = lookupA storeEx "c3" :=
  setState_resident_untouched statesCfgEx regsEx storeEx storeExA managerExA
    "A" "c3" false (by decide) (by decide)

/-! ## Claim C6 — idempotence guard, and force bypassing it -/

/-- Claim C6: a repeated `setState(sid, false)` right after any
`setState(sid, false)` is a no-op returning the identical manager and heap
(so calling twice equals calling once); with `force = true` the guard is
bypassed and the apply routine runs again even when `sid` is already the
active state id. -/
theorem setState_idempotent_and_force (m : StateManager) (store : Store)
    (sid : String) :
    (∀ (m' : StateManager) (store' : Store),
      m.setState store sid false = some (m', store') →
      m'.setState store' sid false = some (m', store')) ∧
    (∀ st : State, lookupA m.states sid = some st →
      m.currentStateId = some sid →
      m.setState store sid true =
        (StateManager.setupState
            { m with currentStateId := some sid, currentState := some st }
            store).map
          (fun s =>
            ({ m with currentStateId := some sid, currentState := some st }, s))) := by
  constructor
  · intro m' store' hrun
    by_cases hg : m.currentStateId = some sid ∧ (false : Bool) = false
    · rw [StateManager.setState, if_pos hg] at hrun
      have hm : m = m' := congrArg Prod.fst (Option.some.inj hrun)
      have hs : store = store' := congrArg Prod.snd (Option.some.inj hrun)
      rw [StateManager.setState, if_pos (by rw [← hm]; exact hg)]
    · cases hdecl : lookupA m.states sid with
      | none =>
        rw [StateManager.setState, if_neg hg, hdecl] at hrun
        have hm : m = m' := congrArg Prod.fst (Option.some.inj hrun)
        have hs : store = store' := congrArg Prod.snd (Option.some.inj hrun)
        rw [← hm, ← hs, StateManager.setState, if_neg hg, hdecl]
      | some st =>
        obtain ⟨hm', hsetup⟩ :=
          setState_transition m m' store store' sid false st hdecl hg hrun
        have hcur : m'.currentStateId = some sid := by rw [hm']
        rw [StateManager.setState, if_pos ⟨hcur, rfl⟩]
  · intro st hdecl _
    rw [StateManager.setState, if_neg (by rintro ⟨_, h⟩; exact absurd h (by simp)),
      hdecl]
    cases hsetup : StateManager.setupState
        { m with currentStateId := some sid, currentState := some st } store with
    | none => simp [hsetup]
    | some s' => simp [hsetup]

/-- Claim C6, witness: re-issuing `setState("A", false)` after the worked
example's transition to A returns the identical manager and heap. -/
theorem setState_idempotent_and_force_witness :
    managerExA.setState storeExA "A" false = some (managerExA, storeExA) :=
  (setState_idempotent_and_force managerEx storeEx "A").1 managerExA storeExA
    (by decide)

/-! ## Claim C9 — no errors when every listed childId is registered -/

/-- Claim C9: provided every childId listed in any declared state's config
was registered (so it was stored as a dynamic component), `setState` never
throws — it returns a value for every `stateId` and `force`, the failures
being silent no-ops; `getActiveComponentByKey` is a total function in this
embedding (it only returns a handle or `none`). -/
theorem setState_total_when_registered (statesCfg : List (String × StateConfig))
    (regs : List (String × Option String)) (store : Store) (sid : String)
    (force : Bool)
    (hreg : ∀ p ∈ statesCfg, ∀ id ∈ p.2.map Prod.fst, id ∈ regs.map Prod.fst) :
    ((addComponents (StateManager.init statesCfg) regs).setState
        store sid force).isSome := by
  set M := addComponents (StateManager.init statesCfg) regs with hM
  have hMdyn : M.dynamicChildrenIds =
      (StateManager.init statesCfg).dynamicChildrenIds :=
    (addComponents_fields regs _).1
  have hMstates : M.states = (StateManager.init statesCfg).states :=
    (addComponents_fields regs _).2.1
  have hcomp : ∀ id ∈ (StateManager.init statesCfg).dynamicChildrenIds,
      id ∈ M.components := by
    intro id hid
    rw [hM, mem_components_addComponents]
    refine Or.inr ⟨?_, hid⟩
    rcases (mem_dyn_init statesCfg id).mp hid with ⟨p, hp, hidp⟩
    exact hreg p hp id hidp
  rw [StateManager.setState]
  by_cases hg : M.currentStateId = some sid ∧ force = false
  · rw [if_pos hg]
    simp
  · rw [if_neg hg]
    cases hdecl : lookupA M.states sid with
    | none => simp
    | some st =>
      simp only
      have hsome := setupState_isSome
        { M with currentStateId := some sid, currentState := some st } st store
        rfl
        (fun id hid => hcomp id (by rw [← hMdyn]; exact hid))
        (fun id hid => hcomp id
          (componentIds_subset_dyn_init statesCfg sid id st
            (by rw [← hMstates]; exact hdecl) hid))
      cases hsetup : StateManager.setupState
          { M with currentStateId := some sid, currentState := some st } store with
      | none => rw [hsetup] at hsome; simp at hsome
      | some s' => simp

/-- Claim C9, witness: on the fully registered worked example, a transition,
a repeat, and an unknown-state probe all return values. -/
theorem setState_total_when_registered_witness :
    ((addComponents (StateManager.init statesCfgEx) regsEx).setState
        storeEx "A" false).isSome :=
  setState_total_when_registered statesCfgEx regsEx storeEx "A" false (by decide)
